import Mathlib

/-!
Shallow embedding of the Code2Concept backend (`src/backend/server.js`) and
proofs about it.  Pure string manipulation is modelled on `List Char`;
filesystem effects are modelled by explicit boolean state (does a path
exist?) threaded through the handler functions; subprocess invocations are
modelled by their observable outcome (exit code, captured stdout/stderr,
spawn failure).  Each handler definition is a direct transcription of the
corresponding JavaScript callback.
-/

namespace Server

/-- Character-list prefix test: `startsWith p s` holds when `p` is a prefix
of `s`.  Used to model JavaScript substring matching. -/
def startsWith : List Char → List Char → Bool
  | [], _ => true
  | _ :: _, [] => false
  | p :: ps, c :: cs => p == c && startsWith ps cs

/-- Substring test: `hasSub p s` holds when `p` occurs contiguously in `s`. -/
def hasSub (p : List Char) : List Char → Bool
  | [] => startsWith p []
  | c :: cs => startsWith p (c :: cs) || hasSub p cs

/-- String-level substring test. -/
def containsStr (needle hay : String) : Bool :=
  hasSub needle.data hay.data

/-- Suffix test on character lists, via reversal. -/
def endsWithList (suffix s : List Char) : Bool :=
  startsWith suffix.reverse s.reverse

/-- Model of JavaScript `name.endsWith(".mp4")` from `findVideoFile`. -/
def endsWithMp4 (name : String) : Bool :=
  endsWithList ".mp4".data name.data

/-- Model of JavaScript `String.prototype.trim` (whitespace stripped from
both ends), as used at the end of `cleanJsonResponse`. -/
def trimChars (s : List Char) : List Char :=
  ((s.dropWhile Char.isWhitespace).reverse.dropWhile Char.isWhitespace).reverse

/-- Fence marker ` ```json ` followed by a newline. -/
def jsonFenceNl : List Char := "```json\n".data

/-- Fence marker ` ```json ` without a newline. -/
def jsonFence : List Char := "```json".data

/-- Fence marker ` ``` ` followed by a newline. -/
def tickFenceNl : List Char := "```\n".data

/-- Fence marker ` ``` ` without a newline. -/
def tickFence : List Char := "```".data

/-- Fuelled global removal of two patterns (the longer newline-carrying one
tried first, matching the greedy regex `\n?`).  Models one
`text.replace(/pat\n?/g, '')` pass; the fuel is the input length, enough
because every step consumes at least one character. -/
def stripTwo (patNl pat : List Char) : Nat → List Char → List Char
  | 0, s => s
  | _ + 1, [] => []
  | fuel + 1, c :: cs =>
    if startsWith patNl (c :: cs) then
      stripTwo patNl pat fuel (List.drop patNl.length (c :: cs))
    else if startsWith pat (c :: cs) then
      stripTwo patNl pat fuel (List.drop pat.length (c :: cs))
    else
      c :: stripTwo patNl pat fuel cs

/-- Model of `text.replace(/```json\n?/g, '')`. -/
def stripFenceJson (s : List Char) : List Char :=
  stripTwo jsonFenceNl jsonFence s.length s

/-- Model of `text.replace(/```\n?/g, '')`. -/
def stripFenceTicks (s : List Char) : List Char :=
  stripTwo tickFenceNl tickFence s.length s

/-- Model of `cleanJsonResponse` (server.js lines 70-75): remove all
` ```json ` fences, then all bare ` ``` ` fences (each with an optional
trailing newline), then trim surrounding whitespace. -/
def cleanJsonResponse (s : String) : String :=
  String.mk (trimChars (stripFenceTicks (stripFenceJson s.data)))

/-- JavaScript trim at the `String` level, for comparison. -/
def jsTrim (s : String) : String :=
  String.mk (trimChars s.data)

/-- The four characters of the literal pattern `'.mp4'`. -/
def mp4Chars : List Char := ".mp4".data

/-- Model of `videoFileName.replace('.mp4', '')` (server.js line 525):
JavaScript `replace` with a string pattern removes only the FIRST
occurrence of `.mp4`. -/
def replaceFirstMp4 : List Char → List Char
  | [] => []
  | c :: cs =>
    if startsWith mp4Chars (c :: cs) then List.drop 3 cs
    else c :: replaceFirstMp4 cs

/-- Model of `path.basename` for forward-slash paths: the last
slash-separated component, ignoring trailing separators. -/
def jsBasename (p : String) : String :=
  let rev := p.data.reverse.dropWhile (fun c => c == '/')
  String.mk (rev.takeWhile (fun c => !(c == '/'))).reverse

/-- The `baseFileName` computed at server.js line 525. -/
def baseFileName (videoFileName : String) : String :=
  String.mk (replaceFirstMp4 videoFileName.data)

/-- The published file name `${baseFileName}_with_audio.mp4`
(server.js line 526). -/
def withAudioName (videoFileName : String) : String :=
  baseFileName videoFileName ++ "_with_audio.mp4"

/-- The published artifact path `videos/<renderId>/<base>_with_audio.mp4`
(server.js lines 520, 526), with the server directory as root. -/
def finalVideoPathOf (renderId videoFileName : String) : String :=
  "videos/" ++ renderId ++ "/" ++ withAudioName videoFileName

/-- The response URL `/videos/<renderId>/<base>_with_audio.mp4`
(server.js line 530). -/
def videoUrlOf (renderId videoFileName : String) : String :=
  "/videos/" ++ renderId ++ "/" ++ withAudioName videoFileName

/-- The `code` mapping of an Approach, as produced by `generateApproaches`
(server.js lines 263-268).  A `none` field models a missing key. -/
structure ApproachCode where
  javaCode : Option String
  cppCode : Option String
  pythonCode : Option String
  jsCode : Option String

/-- JavaScript truthiness for an optional string: `undefined` and the empty
string are falsy. -/
def jsTruthy : Option String → Bool
  | none => false
  | some s => !(s == "")

/-- JavaScript `a || b`: returns `a` when truthy, otherwise `b`. -/
def jsOrElse (a b : Option String) : Option String :=
  if jsTruthy a then a else b

/-- Model of the source-code selection at server.js lines 434-437:
`approach.code.javaCode || approach.code.cppCode || approach.code.pythonCode
|| approach.code.jsCode`. -/
def selectCode (c : ApproachCode) : Option String :=
  jsOrElse c.javaCode (jsOrElse c.cppCode (jsOrElse c.pythonCode c.jsCode))

mutual

/-- A directory as observed by `findVideoFile`: nonexistent
(`fs.existsSync` false), a directory whose `fs.readdirSync` raises, or a
readable listing. -/
inductive DirNode where
  | missing : DirNode
  | listError : DirNode
  | node : List FsItem → DirNode

/-- One `withFileTypes` directory entry: a regular file, a subdirectory, or
an entry that is neither (skipped by both loops of `findVideoFile`). -/
inductive FsItem where
  | file : String → FsItem
  | dir : String → DirNode → FsItem
  | other : String → FsItem

end

mutual

/-- Model of `findVideoFile` (server.js lines 41-67): return `none` for a
missing directory or a listing error; otherwise first scan the current
listing for a file named `*.mp4`, then recurse into subdirectories in
listing order. -/
def findVideoFile (dir : String) : DirNode → Option String
  | DirNode.missing => none
  | DirNode.listError => none
  | DirNode.node items =>
    match firstMp4File dir items with
    | some p => some p
    | none => findInSubdirs dir items

/-- The first loop of `findVideoFile`: the first regular file of the
listing whose name ends in `.mp4`, joined to `dir`. -/
def firstMp4File (dir : String) : List FsItem → Option String
  | [] => none
  | FsItem.file name :: rest =>
    if endsWithMp4 name then some (dir ++ "/" ++ name) else firstMp4File dir rest
  | FsItem.dir _ _ :: rest => firstMp4File dir rest
  | FsItem.other _ :: rest => firstMp4File dir rest

/-- The second loop of `findVideoFile`: recurse into each subdirectory in
listing order, returning the first hit. -/
def findInSubdirs (dir : String) : List FsItem → Option String
  | [] => none
  | FsItem.file _ :: rest => findInSubdirs dir rest
  | FsItem.other _ :: rest => findInSubdirs dir rest
  | FsItem.dir name d :: rest =>
    match findVideoFile (dir ++ "/" ++ name) d with
    | some p => some p
    | none => findInSubdirs dir rest

end

mutual

/-- Whether a readable `.mp4` file is reachable in the tree (files under a
missing or erroring directory are not listable, hence not reachable). -/
def hasMp4 : DirNode → Bool
  | DirNode.missing => false
  | DirNode.listError => false
  | DirNode.node items => hasMp4List items

/-- List version of `hasMp4`. -/
def hasMp4List : List FsItem → Bool
  | [] => false
  | FsItem.file name :: rest => endsWithMp4 name || hasMp4List rest
  | FsItem.dir _ d :: rest => hasMp4 d || hasMp4List rest
  | FsItem.other _ :: rest => hasMp4List rest

end

/-- Whether a listing entry is a regular file named `*.mp4`. -/
def isMp4File : FsItem → Bool
  | FsItem.file name => endsWithMp4 name
  | FsItem.dir _ _ => false
  | FsItem.other _ => false

/-- The audio artifact path `audio/<audioId>.wav` (server.js line 130),
with the server directory as root. -/
def audioFilePathOf (audioId : String) : String :=
  "audio/" ++ audioId ++ ".wav"

/-- The temporary driver script path `audio/<audioId>_script.py`
(server.js line 163). -/
def audioScriptPathOf (audioId : String) : String :=
  "audio/" ++ audioId ++ "_script.py"

/-- Settled outcome of the `generateAudio` promise. -/
inductive AudioResult where
  | resolved : String → AudioResult
  | rejected : String → AudioResult
deriving DecidableEq

/-- Model of the `generateAudio` close handler (server.js lines 182-197).
Inputs: the exit code, the captured stderr, whether the expected `.wav`
file exists on disk, whether the driver script file still exists, and
whether deleting it raises.  Output: whether the script file exists
afterwards, paired with the settled promise result.  The `unlinkSync` is
wrapped in try/catch, so a deletion failure only leaves the file behind
and never changes the result. -/
def audioCloseHandler (audioId : String) (code : Int) (errorOutput : String)
    (audioFileProduced scriptExists scriptUnlinkThrows : Bool) :
    Bool × AudioResult :=
  let scriptAfter := if scriptExists then (if scriptUnlinkThrows then true else false) else false
  let result :=
    if code == 0 && audioFileProduced then
      AudioResult.resolved (audioFilePathOf audioId)
    else
      AudioResult.rejected ("Audio generation failed: " ++ errorOutput)
  (scriptAfter, result)

/-- Model of the `generateAudio` spawn-error handler
(server.js lines 199-201). -/
def audioErrorHandler (msg : String) : AudioResult :=
  AudioResult.rejected ("Failed to start audio generation: " ++ msg)

/-- The argument vector passed to the muxing process
(server.js lines 212-220). -/
def ffmpegArgs (videoPath audioPath outputPath : String) : List String :=
  ["-i", videoPath, "-i", audioPath, "-c:v", "copy", "-c:a", "aac",
   "-shortest", "-y", outputPath]

/-- Settled outcome of the `combineVideoAndAudio` promise. -/
inductive MuxResult where
  | resolved : String → MuxResult
  | rejected : String → MuxResult
deriving DecidableEq

/-- The rejection message built at server.js line 239. -/
def ffmpegFailMessage (code : Int) (errorOutput : String) : String :=
  "FFmpeg failed with code " ++ toString code ++ ": " ++ errorOutput

/-- Model of the `combineVideoAndAudio` close handler
(server.js lines 233-241): resolve with `outputPath` on exit code 0,
otherwise reject with the captured stderr. -/
def combineClose (outputPath : String) (code : Int) (errorOutput : String) :
    MuxResult :=
  if code == 0 then MuxResult.resolved outputPath
  else MuxResult.rejected (ffmpegFailMessage code errorOutput)

/-- Model of the `combineVideoAndAudio` spawn-error handler
(server.js lines 243-245). -/
def combineError (msg : String) : MuxResult :=
  MuxResult.rejected ("Failed to start FFmpeg: " ++ msg)

/-- Existence state of the two per-job temporary resources. -/
structure JobFs where
  renderDirExists : Bool
  audioFileExists : Bool
deriving DecidableEq

/-- Behaviour of the filesystem during cleanup: whether `fs.rmSync` inside
`deleteDirectory` raises, whether `fs.unlinkSync` on the audio file raises,
and the message of the unlink error when it does. -/
structure FsBehavior where
  rmThrows : Bool
  unlinkThrows : Bool
  unlinkMsg : String
deriving DecidableEq

/-- Model of `deleteDirectory` (server.js lines 29-38): delete only when
the directory exists; an `fs.rmSync` error is caught and logged, leaving
the directory behind; no exception ever escapes. -/
def deleteDirectory (dirExists rmThrows : Bool) : Bool :=
  if dirExists then (if rmThrows then true else false) else false

/-- Model of `if (audioFilePath && fs.existsSync(audioFilePath))
fs.unlinkSync(audioFilePath)`: delete only when the file exists; the
unlink is NOT try-wrapped, so a raising unlink leaves the file behind and
the exception escapes (second component `true`). -/
def unlinkIfExists (fileExists unlinkThrows : Bool) : Bool × Bool :=
  if fileExists then
    (if unlinkThrows then (true, true) else (false, false))
  else (false, false)

/-- One cleanup block of the `/api/getAnimation` handler: `deleteDirectory`
on the render directory (guarded by `renderDir` being set) followed by the
guarded audio unlink (guarded by `audioFilePath` being set).  Returns the
new state and whether an exception escaped the block. -/
def cleanupGuarded (renderDirSet audioSet : Bool) (st : JobFs)
    (fb : FsBehavior) : JobFs × Bool :=
  let rd := if renderDirSet then deleteDirectory st.renderDirExists fb.rmThrows
            else st.renderDirExists
  let au := if audioSet then unlinkIfExists st.audioFileExists fb.unlinkThrows
            else (st.audioFileExists, false)
  (⟨rd, au.1⟩, au.2)

/-- Observable HTTP outcome of one `/api/getAnimation` request: success
JSON, a 500 with a JSON body of key/value fields, or no response at all
(an exception escaped the handler). -/
inductive HttpResponse where
  | ok : String → HttpResponse
  | serverError : List (String × String) → HttpResponse
  | noResponse : HttpResponse
deriving DecidableEq

/-- The 500 body sent at server.js lines 492-496. -/
def manimFailBody (code : Int) (output errorOutput : String) :
    List (String × String) :=
  [("error", "Manim failed with code " ++ toString code),
   ("output", output), ("errorOutput", errorOutput)]

/-- The 500 body sent at server.js lines 510-514. -/
def noVideoBody (output errorOutput : String) : List (String × String) :=
  [("error", "No video file generated"),
   ("output", output), ("errorOutput", errorOutput)]

/-- The 500 body sent at server.js lines 549-554. -/
def processingErrorBody (details output errorOutput : String) :
    List (String × String) :=
  [("error", "Error processing generated video with audio"),
   ("details", details), ("output", output), ("errorOutput", errorOutput)]

/-- The 500 body sent at server.js lines 565-568. -/
def manimSpawnErrorBody (details : String) : List (String × String) :=
  [("error", "Failed to start Manim process"), ("details", details)]

/-- The 500 body sent at server.js lines 578-581. -/
def outerCatchBody (details : String) : List (String × String) :=
  [("error", "Failed to generate animation with audio"), ("details", details)]

/-- Whether some field of a 500 body (key or value) contains the given
string. -/
def bodyContains (body : List (String × String)) (needle : String) : Bool :=
  body.any (fun kv => containsStr needle kv.1 || containsStr needle kv.2)

/-- Environment of one run of the Manim close handler: exit code and
captured streams of the renderer, the artifact-location result, the
settled mux outcome, and the mux process's captured stdout (accumulated
into the local `output` variable of `combineVideoAndAudio` and then
discarded). -/
structure ManimCloseEnv where
  exitCode : Int
  output : String
  errorOutput : String
  videoFound : Option String
  muxOutcome : MuxResult
  muxStdout : String
deriving DecidableEq

/-- The catch block at server.js lines 542-555: clean up again, then send
the processing-error body — unless the cleanup itself raises, in which case
the exception escapes the async callback and no response is sent. -/
def muxCatchBlock (env : ManimCloseEnv) (details : String) (st : JobFs)
    (fb : FsBehavior) : JobFs × HttpResponse :=
  let c := cleanupGuarded true true st fb
  if c.2 then (c.1, HttpResponse.noResponse)
  else (c.1, HttpResponse.serverError
    (processingErrorBody details env.output env.errorOutput))

/-- Model of the Manim close handler (server.js lines 481-556).  On a
nonzero exit: clean up and send the failure body (or crash if the audio
unlink raises, since that branch is outside the try).  On exit 0: locate
the artifact; if absent, clean up and send the no-video body (an unlink
error jumps to the catch block).  Otherwise the mux outcome decides: a
rejection jumps to the catch block with the rejection message; a
resolution cleans up and sends `videoUrl` (an unlink error again jumps to
the catch block). -/
def manimCloseHandler (renderId : String) (env : ManimCloseEnv) (st : JobFs)
    (fb : FsBehavior) : JobFs × HttpResponse :=
  if env.exitCode != 0 then
    let c := cleanupGuarded true true st fb
    if c.2 then (c.1, HttpResponse.noResponse)
    else (c.1, HttpResponse.serverError
      (manimFailBody env.exitCode env.output env.errorOutput))
  else
    match env.videoFound with
    | none =>
      let c := cleanupGuarded true true st fb
      if c.2 then muxCatchBlock env fb.unlinkMsg c.1 fb
      else (c.1, HttpResponse.serverError (noVideoBody env.output env.errorOutput))
    | some videoPath =>
      match env.muxOutcome with
      | MuxResult.rejected msg => muxCatchBlock env msg st fb
      | MuxResult.resolved _ =>
        let c := cleanupGuarded true true st fb
        if c.2 then muxCatchBlock env fb.unlinkMsg c.1 fb
        else (c.1, HttpResponse.ok (videoUrlOf renderId (jsBasename videoPath)))

/-- Model of the Manim spawn-error handler (server.js lines 558-569). -/
def manimErrorHandler (details : String) (st : JobFs) (fb : FsBehavior) :
    JobFs × HttpResponse :=
  let c := cleanupGuarded true true st fb
  if c.2 then (c.1, HttpResponse.noResponse)
  else (c.1, HttpResponse.serverError (manimSpawnErrorBody details))

/-- Model of the outer catch of `/api/getAnimation`
(server.js lines 571-582): cleanup guarded by `renderDir` and
`audioFilePath` being non-null, then the generic failure body. -/
def getAnimationCatch (details : String) (renderDirSet audioSet : Bool)
    (st : JobFs) (fb : FsBehavior) : JobFs × HttpResponse :=
  let c := cleanupGuarded renderDirSet audioSet st fb
  if c.2 then (c.1, HttpResponse.noResponse)
  else (c.1, HttpResponse.serverError (outerCatchBody details))

theorem startsWith_mono (p q : List Char) :
    ∀ s, startsWith (p ++ q) s = true → startsWith p s = true := by
  induction p with
  | nil => intro s _; simp [startsWith]
  | cons a ps ih =>
    intro s h
    cases s with
    | nil => simp [startsWith] at h
    | cons c cs =>
      simp only [List.cons_append, startsWith, Bool.and_eq_true] at h ⊢
      exact ⟨h.1, ih cs h.2⟩

theorem startsWith_self_append (p t : List Char) :
    startsWith p (p ++ t) = true := by
  induction p with
  | nil => simp [startsWith]
  | cons a ps ih => simp [startsWith, ih]

theorem startsWith_refl (p : List Char) : startsWith p p = true := by
  have h := startsWith_self_append p []
  simpa using h

theorem hasSub_self (p : List Char) : hasSub p p = true := by
  cases p with
  | nil => simp [hasSub, startsWith]
  | cons c cs => simp [hasSub, startsWith_refl]

theorem hasSub_append_right (p a : List Char) : hasSub p (a ++ p) = true := by
  induction a with
  | nil => simpa using hasSub_self p
  | cons x a' ih => simp [hasSub, ih]

theorem containsStr_append (pre s : String) :
    containsStr s (pre ++ s) = true := by
  show hasSub s.data (pre ++ s).data = true
  rw [String.data_append]
  exact hasSub_append_right s.data pre.data

theorem stripTwo_no_fence (rNl r : List Char) :
    ∀ (fuel : Nat) (s : List Char), hasSub tickFence s = false →
      stripTwo (tickFence ++ rNl) (tickFence ++ r) fuel s = s := by
  intro fuel
  induction fuel with
  | zero => intro s _; rfl
  | succ n ih =>
    intro s h
    cases s with
    | nil => rfl
    | cons c cs =>
      have h' : (startsWith tickFence (c :: cs) || hasSub tickFence cs) = false := h
      rw [Bool.or_eq_false_iff] at h'
      have hNl : startsWith (tickFence ++ rNl) (c :: cs) = false := by
        cases hsw : startsWith (tickFence ++ rNl) (c :: cs) with
        | false => rfl
        | true => rw [startsWith_mono tickFence rNl (c :: cs) hsw] at h'; exact absurd h'.1 (by simp)
      have hP : startsWith (tickFence ++ r) (c :: cs) = false := by
        cases hsw : startsWith (tickFence ++ r) (c :: cs) with
        | false => rfl
        | true => rw [startsWith_mono tickFence r (c :: cs) hsw] at h'; exact absurd h'.1 (by simp)
      simp only [stripTwo, hNl, hP, if_false, Bool.false_eq_true]
      rw [ih cs h'.2]

theorem stripFenceJson_no_fence (s : List Char) (h : hasSub tickFence s = false) :
    stripFenceJson s = s := by
  have e1 : jsonFenceNl = tickFence ++ "json\n".data := by decide
  have e2 : jsonFence = tickFence ++ "json".data := by decide
  show stripTwo jsonFenceNl jsonFence s.length s = s
  rw [e1, e2]
  exact stripTwo_no_fence _ _ s.length s h

theorem stripFenceTicks_no_fence (s : List Char) (h : hasSub tickFence s = false) :
    stripFenceTicks s = s := by
  have e1 : tickFenceNl = tickFence ++ "\n".data := by decide
  have e2 : tickFence = tickFence ++ ([] : List Char) := by simp
  show stripTwo tickFenceNl tickFence s.length s = s
  rw [e1]
  conv_lhs => rw [e2]
  exact stripTwo_no_fence _ _ s.length s h

/-- C7: `cleanJsonResponse` maps the fenced input `"```json\n[1,2]\n```"`
to `"[1,2]"`, and every input containing no ` ``` ` code-fence marker is
returned unchanged except for whitespace trimming. -/
theorem c7_cleanJsonResponse (s : String) (h : containsStr "```" s = false) :
    cleanJsonResponse "```json\n[1,2]\n```" = "[1,2]" ∧
    cleanJsonResponse s = jsTrim s := by
  refine ⟨by decide, ?_⟩
  have h' : hasSub tickFence s.data = false := h
  show String.mk (trimChars (stripFenceTicks (stripFenceJson s.data))) = jsTrim s
  rw [stripFenceJson_no_fence s.data h', stripFenceTicks_no_fence s.data h']
  rfl

/-- Witness for C7 at the concrete fence-free input `"  plain [1] "`. -/
theorem c7_witness :
    containsStr "```" "  plain [1] " = false ∧
    (cleanJsonResponse "```json\n[1,2]\n```" = "[1,2]" ∧
      cleanJsonResponse "  plain [1] " = jsTrim "  plain [1] ") :=
  ⟨by decide, c7_cleanJsonResponse "  plain [1] " (by decide)⟩

theorem mp4Chars_eq : mp4Chars = ['.', 'm', 'p', '4'] := by decide

theorem startsWith_mp4_no_straddle (c : Char) (cs : List Char)
    (h : startsWith mp4Chars (c :: cs) = false) :
    startsWith mp4Chars (c :: (cs ++ mp4Chars)) = false := by
  match cs with
  | [] =>
    have e1 : (('m' : Char) == '.') = false := by decide
    simp [mp4Chars_eq, startsWith, e1]
  | [a] =>
    have e1 : (('p' : Char) == '.') = false := by decide
    simp [mp4Chars_eq, startsWith, e1]
  | [a, b] =>
    have e1 : (('4' : Char) == '.') = false := by decide
    simp [mp4Chars_eq, startsWith, e1]
  | a :: b :: d :: rest =>
    simp only [mp4Chars_eq, startsWith, List.cons_append] at h ⊢
    exact h

theorem replaceFirstMp4_append (b : List Char)
    (h : hasSub mp4Chars b = false) :
    replaceFirstMp4 (b ++ mp4Chars) = b := by
  induction b with
  | nil => decide
  | cons c cs ih =>
    have h' : (startsWith mp4Chars (c :: cs) || hasSub mp4Chars cs) = false := h
    rw [Bool.or_eq_false_iff] at h'
    have hns := startsWith_mp4_no_straddle c cs h'.1
    simp only [List.cons_append, replaceFirstMp4, List.append_eq, hns,
      Bool.false_eq_true, if_false]
    rw [ih h'.2]

theorem string_mk_data (s : String) : String.mk s.data = s := rfl

theorem string_append_assoc (a b c : String) : (a ++ b) ++ c = a ++ (b ++ c) := by
  apply String.ext
  simp [String.data_append, List.append_assoc]

/-- C5 counterexample: the located file name `x.mp4y.mp4` has base name
`<basename>.mp4` with `basename = "x.mp4y"`, but because line 525 removes
the FIRST occurrence of `.mp4` rather than the trailing extension, the
published name is `xy.mp4_with_audio.mp4`, not `x.mp4y_with_audio.mp4`. -/
theorem c5_counterexample :
    ("x.mp4y" ++ ".mp4" : String) = "x.mp4y.mp4" ∧
    videoUrlOf "jobid" "x.mp4y.mp4" = "/videos/jobid/xy.mp4_with_audio.mp4" ∧
    videoUrlOf "jobid" "x.mp4y.mp4" ≠ "/videos/jobid/x.mp4y_with_audio.mp4" ∧
    finalVideoPathOf "jobid" "x.mp4y.mp4" ≠ "videos/jobid/x.mp4y_with_audio.mp4" := by
  decide

/-- C5 amended: on a successful run whose located file is named
`<basename>.mp4` where `<basename>` itself contains no occurrence of
`.mp4` (so the first occurrence removed by `replace('.mp4','')` is the
trailing extension), the artifact goes to
`videos/<jobId>/<basename>_with_audio.mp4` and the response URL is
`/videos/<jobId>/<basename>_with_audio.mp4`. -/
theorem c5_published_name (renderId b : String)
    (h : hasSub mp4Chars b.data = false) :
    finalVideoPathOf renderId (b ++ ".mp4") =
      "videos/" ++ renderId ++ "/" ++ b ++ "_with_audio.mp4" ∧
    videoUrlOf renderId (b ++ ".mp4") =
      "/videos/" ++ renderId ++ "/" ++ b ++ "_with_audio.mp4" := by
  have hdata : (b ++ ".mp4").data = b.data ++ mp4Chars := by
    rw [String.data_append]; rfl
  have hbase : baseFileName (b ++ ".mp4") = b := by
    show String.mk (replaceFirstMp4 (b ++ ".mp4").data) = b
    rw [hdata, replaceFirstMp4_append b.data h, string_mk_data]
  have hname : withAudioName (b ++ ".mp4") = b ++ "_with_audio.mp4" := by
    show baseFileName (b ++ ".mp4") ++ "_with_audio.mp4" = b ++ "_with_audio.mp4"
    rw [hbase]
  constructor
  · show "videos/" ++ renderId ++ "/" ++ withAudioName (b ++ ".mp4") =
      "videos/" ++ renderId ++ "/" ++ b ++ "_with_audio.mp4"
    rw [hname, ← string_append_assoc]
  · show "/videos/" ++ renderId ++ "/" ++ withAudioName (b ++ ".mp4") =
      "/videos/" ++ renderId ++ "/" ++ b ++ "_with_audio.mp4"
    rw [hname, ← string_append_assoc]

/-- Witness for the amended C5 at the spec's own example file name
`AlgorithmDemo.mp4`. -/
theorem c5_witness :
    hasSub mp4Chars "AlgorithmDemo".data = false ∧
    (finalVideoPathOf "id" ("AlgorithmDemo" ++ ".mp4") =
        "videos/" ++ "id" ++ "/" ++ "AlgorithmDemo" ++ "_with_audio.mp4" ∧
      videoUrlOf "id" ("AlgorithmDemo" ++ ".mp4") =
        "/videos/" ++ "id" ++ "/" ++ "AlgorithmDemo" ++ "_with_audio.mp4") :=
  ⟨by decide, c5_published_name "id" "AlgorithmDemo" (by decide)⟩

/-- C9: the visualized source code is the first truthy entry of the
approach's code mapping in the fixed order `javaCode`, `cppCode`,
`pythonCode`, `jsCode`; an empty-string entry is skipped, and when no
entry is truthy the last (`jsCode`) value is what the `||` chain yields. -/
theorem c9_code_selection (c : ApproachCode) :
    (jsTruthy c.javaCode = true → selectCode c = c.javaCode) ∧
    (jsTruthy c.javaCode = false → jsTruthy c.cppCode = true →
      selectCode c = c.cppCode) ∧
    (jsTruthy c.javaCode = false → jsTruthy c.cppCode = false →
      jsTruthy c.pythonCode = true → selectCode c = c.pythonCode) ∧
    (jsTruthy c.javaCode = false → jsTruthy c.cppCode = false →
      jsTruthy c.pythonCode = false → selectCode c = c.jsCode) ∧
    jsTruthy (some "") = false := by
  refine ⟨?_, ?_, ?_, ?_, by decide⟩ <;>
    intros <;> simp [selectCode, jsOrElse, *]

/-- Witness for C9: an empty `javaCode` is skipped in favour of
`cppCode`. -/
theorem c9_witness :
    jsTruthy (some "") = false ∧ jsTruthy (some "int cpp();") = true ∧
    selectCode ⟨some "", some "int cpp();", none, some "js"⟩ = some "int cpp();" :=
  ⟨by decide, by decide,
    (c9_code_selection ⟨some "", some "int cpp();", none, some "js"⟩).2.1
      (by decide) (by decide)⟩

/-- C4: the speech-synthesis close handler resolves with the audio file
path exactly when the exit code is 0 and the expected output file exists;
in every other close case it rejects with a message carrying the captured
stderr; the spawn-error handler rejects with a spawn-failure message; and
a resolution always names the produced (existing) file. -/
theorem c4_generateAudio (audioId : String) (code : Int) (errorOutput : String)
    (produced scriptExists unlinkThrows : Bool) :
    ((audioCloseHandler audioId code errorOutput produced scriptExists unlinkThrows).2 =
        AudioResult.resolved (audioFilePathOf audioId) ↔
      (code = 0 ∧ produced = true)) ∧
    (∀ p, (audioCloseHandler audioId code errorOutput produced scriptExists unlinkThrows).2 =
        AudioResult.resolved p → produced = true ∧ p = audioFilePathOf audioId) ∧
    (¬(code = 0 ∧ produced = true) →
      (audioCloseHandler audioId code errorOutput produced scriptExists unlinkThrows).2 =
        AudioResult.rejected ("Audio generation failed: " ++ errorOutput)) ∧
    (∀ m, audioErrorHandler m =
      AudioResult.rejected ("Failed to start audio generation: " ++ m)) := by
  by_cases h0 : code = 0 ∧ produced = true
  · have hc : (code == 0 && produced) = true := by
      rw [Bool.and_eq_true, beq_iff_eq]; exact ⟨h0.1, h0.2⟩
    simp only [audioCloseHandler, audioErrorHandler, hc, if_true]
    refine ⟨⟨fun _ => h0, fun _ => trivial⟩, ?_, fun hn => absurd h0 hn,
      fun _ => trivial⟩
    intro p hp
    simp only [AudioResult.resolved.injEq] at hp
    exact ⟨h0.2, hp.symm⟩
  · have hc : (code == 0 && produced) = false := by
      cases hb : (code == 0 && produced)
      · rfl
      · rw [Bool.and_eq_true, beq_iff_eq] at hb; exact absurd hb h0
    simp only [audioCloseHandler, audioErrorHandler, hc, Bool.false_eq_true,
      if_false]
    refine ⟨⟨fun h => absurd h (by simp), fun h => absurd h h0⟩, ?_,
      fun _ => trivial, fun _ => trivial⟩
    intro p hp
    exact absurd hp (by simp)

/-- Witness for C4: success at exit 0 with the file produced; failure at
exit 1 carries the stderr; spawn failure carries the spawn message. -/
theorem c4_witness :
    (audioCloseHandler "job1" 0 "" true true false).2 =
      AudioResult.resolved (audioFilePathOf "job1") ∧
    (audioCloseHandler "job1" 0 "e" false true false).2 =
      AudioResult.rejected ("Audio generation failed: " ++ "e") ∧
    (audioCloseHandler "job1" 1 "boom" true true false).2 =
      AudioResult.rejected ("Audio generation failed: " ++ "boom") ∧
    audioErrorHandler "ENOENT" =
      AudioResult.rejected ("Failed to start audio generation: " ++ "ENOENT") :=
  ⟨(c4_generateAudio "job1" 0 "" true true false).1.mpr ⟨rfl, rfl⟩,
    (c4_generateAudio "job1" 0 "e" false true false).2.2.1 (by decide),
    (c4_generateAudio "job1" 1 "boom" true true false).2.2.1 (by decide),
    (c4_generateAudio "job1" 1 "" true true false).2.2.2 "ENOENT"⟩

/-- C8: the driver script `audio/<jobId>_script.py` is gone after the
close handler whenever its deletion does not raise, on the success and
the failure path alike (the handler runs the unlink before inspecting the
exit code), and a deletion failure never changes the settled result. -/
theorem c8_script_cleanup (audioId : String) (code : Int)
    (errorOutput : String) (produced scriptExists unlinkThrows : Bool) :
    audioScriptPathOf audioId = "audio/" ++ audioId ++ "_script.py" ∧
    (audioCloseHandler audioId code errorOutput produced scriptExists false).1 = false ∧
    (audioCloseHandler audioId code errorOutput produced scriptExists unlinkThrows).2 =
      (audioCloseHandler audioId code errorOutput produced scriptExists false).2 := by
  refine ⟨rfl, ?_, rfl⟩
  cases scriptExists <;> simp [audioCloseHandler]

/-- C6: the muxing process receives exactly the copy-video, AAC-audio,
shortest-stream and overwrite options with the output path last, resolves
with `outputPath` exactly on exit code 0, and rejects on any nonzero exit
with a message carrying the captured stderr. -/
theorem c6_mux (videoPath audioPath outputPath : String) (code : Int)
    (errorOutput : String) :
    ffmpegArgs videoPath audioPath outputPath =
      ["-i", videoPath, "-i", audioPath, "-c:v", "copy", "-c:a", "aac",
       "-shortest", "-y", outputPath] ∧
    List.IsInfix ["-c:v", "copy"] (ffmpegArgs videoPath audioPath outputPath) ∧
    List.IsInfix ["-c:a", "aac"] (ffmpegArgs videoPath audioPath outputPath) ∧
    "-shortest" ∈ ffmpegArgs videoPath audioPath outputPath ∧
    "-y" ∈ ffmpegArgs videoPath audioPath outputPath ∧
    (ffmpegArgs videoPath audioPath outputPath).getLast? = some outputPath ∧
    (combineClose outputPath code errorOutput = MuxResult.resolved outputPath ↔
      code = 0) ∧
    (code ≠ 0 →
      combineClose outputPath code errorOutput =
        MuxResult.rejected (ffmpegFailMessage code errorOutput) ∧
      containsStr errorOutput (ffmpegFailMessage code errorOutput) = true) := by
  refine ⟨rfl,
    ⟨["-i", videoPath, "-i", audioPath],
      ["-c:a", "aac", "-shortest", "-y", outputPath], rfl⟩,
    ⟨["-i", videoPath, "-i", audioPath, "-c:v", "copy"],
      ["-shortest", "-y", outputPath], rfl⟩,
    by simp [ffmpegArgs], by simp [ffmpegArgs], by simp [ffmpegArgs],
    ?_, ?_⟩
  · cases hc : (code == 0) <;> simp only [combineClose, hc, if_true, if_false,
      Bool.false_eq_true, reduceIte]
    · rw [beq_eq_false_iff_ne] at hc
      simp [hc]
    · rw [beq_iff_eq] at hc
      simp [hc]
  · intro h
    have hc : (code == 0) = false := by simpa [beq_eq_false_iff_ne] using h
    refine ⟨by simp [combineClose, hc], ?_⟩
    exact containsStr_append ("FFmpeg failed with code " ++ toString code ++ ": ")
      errorOutput

/-- Witness for C6 at exit code 1 with stderr `"bad"`. -/
theorem c6_witness :
    (1 : Int) ≠ 0 ∧
    (combineClose "out.mp4" 1 "bad" =
        MuxResult.rejected (ffmpegFailMessage 1 "bad") ∧
      containsStr "bad" (ffmpegFailMessage 1 "bad") = true) :=
  ⟨by decide, (c6_mux "v.mp4" "a.wav" "out.mp4" 1 "bad").2.2.2.2.2.2.2 (by decide)⟩

mutual

theorem findVideoFile_none_of_no_mp4 :
    ∀ (dir : String) (d : DirNode), hasMp4 d = false → findVideoFile dir d = none
  | _, DirNode.missing, _ => rfl
  | _, DirNode.listError, _ => rfl
  | dir, DirNode.node items, h => by
    have hl : hasMp4List items = false := h
    have hs := scan_none_of_no_mp4 dir items hl
    simp only [findVideoFile, hs.2]
    exact hs.1

theorem scan_none_of_no_mp4 :
    ∀ (dir : String) (items : List FsItem), hasMp4List items = false →
      findInSubdirs dir items = none ∧ firstMp4File dir items = none
  | _, [], _ => ⟨rfl, rfl⟩
  | dir, FsItem.file name :: rest, h => by
    have h' : (endsWithMp4 name || hasMp4List rest) = false := h
    rw [Bool.or_eq_false_iff] at h'
    have ih := scan_none_of_no_mp4 dir rest h'.2
    refine ⟨?_, ?_⟩
    · simp only [findInSubdirs]; exact ih.1
    · simp only [firstMp4File, h'.1, Bool.false_eq_true, if_false]; exact ih.2
  | dir, FsItem.dir name d :: rest, h => by
    have h' : (hasMp4 d || hasMp4List rest) = false := h
    rw [Bool.or_eq_false_iff] at h'
    have hd := findVideoFile_none_of_no_mp4 (dir ++ "/" ++ name) d h'.1
    have ih := scan_none_of_no_mp4 dir rest h'.2
    refine ⟨?_, ?_⟩
    · simp only [findInSubdirs, hd]; exact ih.1
    · simp only [firstMp4File]; exact ih.2
  | dir, FsItem.other name :: rest, h => by
    have ih := scan_none_of_no_mp4 dir rest h
    exact ⟨by simp only [findInSubdirs]; exact ih.1,
      by simp only [firstMp4File]; exact ih.2⟩

end

theorem findInSubdirs_skip (dir : String) (pre rest : List FsItem)
    (h : findInSubdirs dir pre = none) :
    findInSubdirs dir (pre ++ rest) = findInSubdirs dir rest := by
  induction pre with
  | nil => simp
  | cons it pre' ih =>
    cases it with
    | file name =>
      simp only [findInSubdirs] at h
      simp only [List.cons_append, findInSubdirs]
      exact ih h
    | other name =>
      simp only [findInSubdirs] at h
      simp only [List.cons_append, findInSubdirs]
      exact ih h
    | dir name d =>
      simp only [findInSubdirs] at h
      simp only [List.cons_append, findInSubdirs]
      cases hf : findVideoFile (dir ++ "/" ++ name) d with
      | some p => rw [hf] at h; simp at h
      | none =>
        rw [hf] at h
        simp only [hf]
        simp only at h
        exact ih h

theorem firstMp4File_first (dir : String) (items : List FsItem)
    (h : ∃ it ∈ items, isMp4File it = true) :
    ∃ name, FsItem.file name ∈ items ∧ endsWithMp4 name = true ∧
      firstMp4File dir items = some (dir ++ "/" ++ name) := by
  induction items with
  | nil =>
    rcases h with ⟨it, hit, _⟩
    exact absurd hit (List.not_mem_nil it)
  | cons it rest ih =>
    cases it with
    | file name =>
      by_cases he : endsWithMp4 name = true
      · exact ⟨name, List.mem_cons_self _ _, he, by simp [firstMp4File, he]⟩
      · have he' : endsWithMp4 name = false := by
          cases hb : endsWithMp4 name
          · rfl
          · exact absurd hb he
        rcases h with ⟨x, hx, hmp⟩
        rcases List.mem_cons.mp hx with rfl | hx'
        · exact absurd hmp (by simp [isMp4File, he'])
        · rcases ih ⟨x, hx', hmp⟩ with ⟨nm, hmem, hm4, heq⟩
          exact ⟨nm, List.mem_cons_of_mem _ hmem, hm4,
            by simp [firstMp4File, he', heq]⟩
    | dir name d =>
      rcases h with ⟨x, hx, hmp⟩
      rcases List.mem_cons.mp hx with rfl | hx'
      · exact absurd hmp (by simp [isMp4File])
      · rcases ih ⟨x, hx', hmp⟩ with ⟨nm, hmem, hm4, heq⟩
        exact ⟨nm, List.mem_cons_of_mem _ hmem, hm4,
          by simp [firstMp4File, heq]⟩
    | other name =>
      rcases h with ⟨x, hx, hmp⟩
      rcases List.mem_cons.mp hx with rfl | hx'
      · exact absurd hmp (by simp [isMp4File])
      · rcases ih ⟨x, hx', hmp⟩ with ⟨nm, hmem, hm4, heq⟩
        exact ⟨nm, List.mem_cons_of_mem _ hmem, hm4,
          by simp [firstMp4File, heq]⟩

/-- C3: artifact location checks the current directory's files for `.mp4`
before descending (a current-level match is returned even when
subdirectories also contain matches), recurses into subdirectories in
listing order (the first subdirectory that yields a hit decides the
result), returns a not-found signal for a tree with no reachable `.mp4`
file, and on the spec's example tree — `a/b/out.mp4` with `a/video.mp4` —
returns `a/video.mp4`. -/
theorem c3_findVideoFile (dir name : String) (items pre post : List FsItem)
    (d : DirNode) (p : String) :
    ((∃ it ∈ items, isMp4File it = true) →
      ∃ nm, FsItem.file nm ∈ items ∧ endsWithMp4 nm = true ∧
        findVideoFile dir (DirNode.node items) = some (dir ++ "/" ++ nm)) ∧
    (firstMp4File dir (pre ++ FsItem.dir name d :: post) = none →
      findInSubdirs dir pre = none →
      findVideoFile (dir ++ "/" ++ name) d = some p →
      findVideoFile dir (DirNode.node (pre ++ FsItem.dir name d :: post)) =
        some p) ∧
    (hasMp4 (DirNode.node items) = false →
      findVideoFile dir (DirNode.node items) = none) ∧
    findVideoFile "a" (DirNode.node [FsItem.dir "b" (DirNode.node
      [FsItem.file "out.mp4"]), FsItem.file "video.mp4"]) =
      some "a/video.mp4" := by
  refine ⟨?_, ?_, fun h => findVideoFile_none_of_no_mp4 dir _ h, by decide⟩
  · intro h
    rcases firstMp4File_first dir items h with ⟨nm, hmem, hm4, heq⟩
    refine ⟨nm, hmem, hm4, ?_⟩
    simp only [findVideoFile, heq]
  · intro h1 h2 h3
    simp only [findVideoFile, h1]
    rw [findInSubdirs_skip dir pre _ h2]
    simp only [findInSubdirs, h3]

/-- Witness for C3: a current-level match, a listing-order subdirectory
search, and the not-found case, all at concrete trees. -/
theorem c3_witness :
    firstMp4File "r" ([FsItem.file "x.txt"] ++
      FsItem.dir "s" (DirNode.node [FsItem.file "in.mp4"]) :: []) = none ∧
    findInSubdirs "r" [FsItem.file "x.txt"] = none ∧
    findVideoFile ("r" ++ "/" ++ "s") (DirNode.node [FsItem.file "in.mp4"]) =
      some "r/s/in.mp4" ∧
    findVideoFile "r" (DirNode.node ([FsItem.file "x.txt"] ++
      FsItem.dir "s" (DirNode.node [FsItem.file "in.mp4"]) :: [])) =
      some "r/s/in.mp4" :=
  ⟨by decide, by decide, by decide,
    (c3_findVideoFile "r" "s" [] [FsItem.file "x.txt"] []
        (DirNode.node [FsItem.file "in.mp4"]) "r/s/in.mp4").2.1
      (by decide) (by decide) (by decide)⟩

/-- C10: `findVideoFile` is total — a missing directory and a raising
listing both give the not-found result, every tree yields either a path or
`none`, and a filesystem error in one subdirectory is converted to
not-found for that subtree while the search continues with the remaining
entries. -/
theorem c10_findVideoFile_total (dir name : String) (d : DirNode)
    (rest : List FsItem) :
    findVideoFile dir DirNode.missing = none ∧
    findVideoFile dir DirNode.listError = none ∧
    (findVideoFile dir d = none ∨ ∃ p, findVideoFile dir d = some p) ∧
    findInSubdirs dir (FsItem.dir name DirNode.listError :: rest) =
      findInSubdirs dir rest ∧
    findInSubdirs dir (FsItem.dir name DirNode.missing :: rest) =
      findInSubdirs dir rest := by
  refine ⟨rfl, rfl, ?_, by simp [findInSubdirs, findVideoFile],
    by simp [findInSubdirs, findVideoFile]⟩
  cases hf : findVideoFile dir d with
  | none => exact Or.inl rfl
  | some p => exact Or.inr ⟨p, rfl⟩

theorem cleanupGuarded_guards (rs as_ : Bool) (st : JobFs) (fb : FsBehavior)
    (hrm : fb.rmThrows = false) (hul : fb.unlinkThrows = false) :
    cleanupGuarded rs as_ st fb =
      (⟨if rs then false else st.renderDirExists,
        if as_ then false else st.audioFileExists⟩, false) := by
  cases rs <;> cases as_ <;> cases hrd : st.renderDirExists <;>
    cases hau : st.audioFileExists <;>
    simp [cleanupGuarded, deleteDirectory, unlinkIfExists, hrm, hul, hrd, hau]

theorem cleanupGuarded_eval (st : JobFs) (fb : FsBehavior)
    (hrm : fb.rmThrows = false) (hul : fb.unlinkThrows = false) :
    cleanupGuarded true true st fb = (⟨false, false⟩, false) := by
  have h := cleanupGuarded_guards true true st fb hrm hul
  simpa using h

theorem cleanupGuarded_eval2 (st : JobFs) (fb : FsBehavior)
    (hul : fb.unlinkThrows = false) :
    cleanupGuarded true true st fb =
      (⟨deleteDirectory st.renderDirExists fb.rmThrows, false⟩, false) := by
  cases hau : st.audioFileExists <;>
    simp [cleanupGuarded, unlinkIfExists, hul, hau]

theorem cleanupGuarded_snd_false (rs as_ : Bool) (st : JobFs)
    (fb : FsBehavior) (hul : fb.unlinkThrows = false) :
    (cleanupGuarded rs as_ st fb).2 = false := by
  cases as_ <;> cases hau : st.audioFileExists <;>
    simp [cleanupGuarded, unlinkIfExists, hul, hau]

theorem bodyContains_of_mem {body : List (String × String)}
    {k v needle : String} (hm : (k, v) ∈ body)
    (hc : containsStr needle v = true) : bodyContains body needle = true := by
  simp only [bodyContains, List.any_eq_true]
  exact ⟨(k, v), hm, by simp [hc]⟩

/-- C1 counterexample: the claimed invariant fails in three distinct
ways.  With the audio file present and its `fs.unlinkSync` raising (the
unlink at server.js line 490 is not try-wrapped), a render failure that
should answer 500 instead sends no response at all and the audio file
survives — a cleanup error masks the outcome; with `fs.rmSync` raising
inside `deleteDirectory`, the request completes with its normal response
while `renders/<jobId>` still exists; and with NO deletion error at all,
when the speech subprocess writes `audio/<jobId>.wav` but exits nonzero,
`generateAudio` rejects (its close handler rejects whenever the exit code
is nonzero, even with the file produced), `audioFilePath` is never
assigned, so the outer catch's null guard skips the unlink and the audio
file outlives the completed request. -/
theorem c1_counterexample :
    (manimCloseHandler "jid" ⟨1, "out", "err", none, MuxResult.resolved "x", ""⟩
        ⟨true, true⟩ ⟨false, true, "EACCES: permission denied"⟩).2 =
      HttpResponse.noResponse ∧
    (manimCloseHandler "jid" ⟨1, "out", "err", none, MuxResult.resolved "x", ""⟩
        ⟨true, true⟩ ⟨false, true, "EACCES: permission denied"⟩).1.audioFileExists =
      true ∧
    (manimCloseHandler "jid" ⟨1, "out", "err", none, MuxResult.resolved "x", ""⟩
        ⟨true, true⟩ ⟨false, false, ""⟩).2 =
      HttpResponse.serverError (manimFailBody 1 "out" "err") ∧
    (manimCloseHandler "jid" ⟨0, "out", "err", some "v.mp4",
        MuxResult.resolved "p", ""⟩ ⟨true, true⟩ ⟨false, true, "EACCES"⟩).2 =
      HttpResponse.noResponse ∧
    (manimCloseHandler "jid" ⟨0, "out", "err", some "v.mp4",
        MuxResult.resolved "p", ""⟩ ⟨true, true⟩ ⟨false, false, ""⟩).2 =
      HttpResponse.ok "/videos/jid/v_with_audio.mp4" ∧
    (manimCloseHandler "jid" ⟨1, "out", "err", none, MuxResult.resolved "x", ""⟩
        ⟨true, true⟩ ⟨true, false, ""⟩).2 =
      HttpResponse.serverError (manimFailBody 1 "out" "err") ∧
    (manimCloseHandler "jid" ⟨1, "out", "err", none, MuxResult.resolved "x", ""⟩
        ⟨true, true⟩ ⟨true, false, ""⟩).1.renderDirExists = true ∧
    (audioCloseHandler "jid" 1 "err" true false false).2 =
      AudioResult.rejected ("Audio generation failed: " ++ "err") ∧
    (getAnimationCatch ("Audio generation failed: " ++ "err") true false
        ⟨true, true⟩ ⟨false, false, "m"⟩).2 =
      HttpResponse.serverError
        (outerCatchBody ("Audio generation failed: " ++ "err")) ∧
    (getAnimationCatch ("Audio generation failed: " ++ "err") true false
        ⟨true, true⟩ ⟨false, false, "m"⟩).1.audioFileExists = true := by
  decide

/-- C1 amended: on the Manim close and spawn-error paths (where both
resource references are set) and in the outer catch when both references
are set, a run whose deletions do not raise leaves the working directory
and audio file nonexistent, deleting each only if it exists (running the
cleanup a second time is a no-op), and a `deleteDirectory` error is
swallowed and never changes the response; but an audio-file unlink error
is NOT caught, so it can replace or mask the job's original outcome; and
in the outer catch with `audioFilePath` still null (as after
`generateAudio` rejects even though the speech subprocess already wrote
the `.wav`), the unlink is skipped entirely and the audio file's on-disk
state is untouched, so the file can outlive the request with no deletion
error at all. -/
theorem c1_cleanup (renderId details : String) (env : ManimCloseEnv)
    (st st2 : JobFs) (fb fb2 : FsBehavior) (rs : Bool)
    (hrm : fb.rmThrows = false) (hul : fb.unlinkThrows = false)
    (hul2 : fb2.unlinkThrows = false) :
    ((manimCloseHandler renderId env st fb).1.renderDirExists = false ∧
      (manimCloseHandler renderId env st fb).1.audioFileExists = false) ∧
    ((manimErrorHandler details st fb).1.renderDirExists = false ∧
      (manimErrorHandler details st fb).1.audioFileExists = false) ∧
    ((getAnimationCatch details true true st2 fb).1.renderDirExists = false ∧
      (getAnimationCatch details true true st2 fb).1.audioFileExists = false) ∧
    ((getAnimationCatch details rs false st2 fb).1.audioFileExists =
      st2.audioFileExists) ∧
    ((manimCloseHandler renderId env st fb2).2 =
      (manimCloseHandler renderId env st ⟨false, false, fb2.unlinkMsg⟩).2) ∧
    (cleanupGuarded true true ((cleanupGuarded true true st fb).1) fb =
      ((cleanupGuarded true true st fb).1, false)) := by
  have hc := cleanupGuarded_eval st fb hrm hul
  have hc2 := cleanupGuarded_eval (⟨false, false⟩ : JobFs) fb hrm hul
  refine ⟨?_, ?_, ?_, ?_, ?_, ?_⟩
  · obtain ⟨ec, out, eo, vf, mo, ms⟩ := env
    cases vf <;> cases mo <;> cases hbe : (ec != 0) <;>
      simp [manimCloseHandler, muxCatchBlock, hc, hc2, hbe]
  · simp [manimErrorHandler, hc]
  · have hg := cleanupGuarded_guards true true st2 fb hrm hul
    simp [getAnimationCatch, hg]
  · cases rs <;> simp [getAnimationCatch, cleanupGuarded]
  · have h1 := cleanupGuarded_eval2 st fb2 hul2
    have h1' := cleanupGuarded_eval2 st (⟨false, false, fb2.unlinkMsg⟩ : FsBehavior) rfl
    obtain ⟨ec, out, eo, vf, mo, ms⟩ := env
    cases vf <;> cases mo <;> cases hbe : (ec != 0) <;>
      simp [manimCloseHandler, muxCatchBlock, h1, h1', hbe]
  · rw [hc]
    exact hc2

/-- Witness for the amended C1 at a concrete successful run with a
well-behaved filesystem. -/
theorem c1_witness :
    ((manimCloseHandler "jid" ⟨0, "o", "e", some "v.mp4",
        MuxResult.resolved "p", "fo"⟩ ⟨true, true⟩
        ⟨false, false, "m"⟩).1.renderDirExists = false ∧
      (manimCloseHandler "jid" ⟨0, "o", "e", some "v.mp4",
        MuxResult.resolved "p", "fo"⟩ ⟨true, true⟩
        ⟨false, false, "m"⟩).1.audioFileExists = false) ∧
    ((manimErrorHandler "boom" ⟨true, true⟩ ⟨false, false, "m"⟩).1.renderDirExists = false ∧
      (manimErrorHandler "boom" ⟨true, true⟩ ⟨false, false, "m"⟩).1.audioFileExists = false) ∧
    ((getAnimationCatch "boom" true true ⟨true, true⟩ ⟨false, false, "m"⟩).1.renderDirExists = false ∧
      (getAnimationCatch "boom" true true ⟨true, true⟩ ⟨false, false, "m"⟩).1.audioFileExists = false) ∧
    ((getAnimationCatch "boom" true false ⟨true, true⟩
        ⟨false, false, "m"⟩).1.audioFileExists =
      (⟨true, true⟩ : JobFs).audioFileExists) ∧
    ((manimCloseHandler "jid" ⟨0, "o", "e", some "v.mp4",
        MuxResult.resolved "p", "fo"⟩ ⟨true, true⟩ ⟨true, false, "m2"⟩).2 =
      (manimCloseHandler "jid" ⟨0, "o", "e", some "v.mp4",
        MuxResult.resolved "p", "fo"⟩ ⟨true, true⟩ ⟨false, false, "m2"⟩).2) ∧
    (cleanupGuarded true true
        ((cleanupGuarded true true ⟨true, true⟩ ⟨false, false, "m"⟩).1)
        ⟨false, false, "m"⟩ =
      ((cleanupGuarded true true ⟨true, true⟩ ⟨false, false, "m"⟩).1, false)) :=
  c1_cleanup "jid" "boom" ⟨0, "o", "e", some "v.mp4", MuxResult.resolved "p", "fo"⟩
    ⟨true, true⟩ ⟨true, true⟩ ⟨false, false, "m"⟩ ⟨true, false, "m2"⟩ true
    rfl rfl rfl

/-- C2 counterexample: on a mux-stage failure the failed external process
is the muxer, whose captured stdout (here the nonempty `"FFOUT7"`)
appears in no field of the 500 body — the response carries the renderer's
streams and only the muxer's stderr (inside `details`), so the body does
not contain the captured stdout of the process that failed. -/
theorem c2_counterexample :
    (manimCloseHandler "jid" ⟨0, "mOut", "mErr", some "v.mp4",
        combineClose "videos/jid/v_with_audio.mp4" 1 "ffErr", "FFOUT7"⟩
        ⟨true, true⟩ ⟨false, false, ""⟩).2 =
      HttpResponse.serverError
        (processingErrorBody (ffmpegFailMessage 1 "ffErr") "mOut" "mErr") ∧
    "FFOUT7" ≠ "" ∧
    bodyContains
      (processingErrorBody (ffmpegFailMessage 1 "ffErr") "mOut" "mErr")
      "FFOUT7" = false := by
  decide

/-- C2 amended: every pipeline-stage 500 carries the failed process's
captured stderr — directly as `errorOutput` for renderer failures (which
also carry its stdout), and embedded in `details` for mux and speech
failures — but the captured stdout of the mux and speech subprocesses is
not included in the body. -/
theorem c2_failure_bodies (renderId vp op pyErr details : String)
    (env : ManimCloseEnv) (st : JobFs) (fb : FsBehavior) (c : Int)
    (s : String) (rs as_ : Bool)
    (hrm : fb.rmThrows = false) (hul : fb.unlinkThrows = false) :
    (env.exitCode ≠ 0 →
      (manimCloseHandler renderId env st fb).2 =
        HttpResponse.serverError
          (manimFailBody env.exitCode env.output env.errorOutput) ∧
      ("output", env.output) ∈ manimFailBody env.exitCode env.output env.errorOutput ∧
      ("errorOutput", env.errorOutput) ∈
        manimFailBody env.exitCode env.output env.errorOutput) ∧
    (env.exitCode = 0 → env.videoFound = none →
      (manimCloseHandler renderId env st fb).2 =
        HttpResponse.serverError (noVideoBody env.output env.errorOutput) ∧
      ("output", env.output) ∈ noVideoBody env.output env.errorOutput ∧
      ("errorOutput", env.errorOutput) ∈ noVideoBody env.output env.errorOutput) ∧
    (env.exitCode = 0 → env.videoFound = some vp →
      env.muxOutcome = combineClose op c s → c ≠ 0 →
      (manimCloseHandler renderId env st fb).2 =
        HttpResponse.serverError
          (processingErrorBody (ffmpegFailMessage c s) env.output env.errorOutput) ∧
      bodyContains
        (processingErrorBody (ffmpegFailMessage c s) env.output env.errorOutput)
        s = true) ∧
    ((getAnimationCatch ("Audio generation failed: " ++ pyErr) rs as_ st fb).2 =
        HttpResponse.serverError
          (outerCatchBody ("Audio generation failed: " ++ pyErr)) ∧
      bodyContains (outerCatchBody ("Audio generation failed: " ++ pyErr))
        pyErr = true) ∧
    ((manimErrorHandler details st fb).2 =
      HttpResponse.serverError (manimSpawnErrorBody details)) := by
  have hc := cleanupGuarded_eval st fb hrm hul
  have hc2 := cleanupGuarded_eval (⟨false, false⟩ : JobFs) fb hrm hul
  refine ⟨?_, ?_, ?_, ?_, ?_⟩
  · intro hne
    have hbe : (env.exitCode != 0) = true := by simpa [bne_iff_ne] using hne
    refine ⟨?_, by simp [manimFailBody], by simp [manimFailBody]⟩
    simp [manimCloseHandler, hbe, hc]
  · intro h0 hvn
    have hbe : (env.exitCode != 0) = false := by simp [h0]
    refine ⟨?_, by simp [noVideoBody], by simp [noVideoBody]⟩
    simp [manimCloseHandler, hbe, hvn, hc]
  · intro h0 hvs hmo hcne
    have hbe : (env.exitCode != 0) = false := by simp [h0]
    have hcz : (c == 0) = false := by simpa [beq_eq_false_iff_ne] using hcne
    have hrej : env.muxOutcome = MuxResult.rejected (ffmpegFailMessage c s) := by
      rw [hmo]; simp [combineClose, hcz]
    refine ⟨?_, ?_⟩
    · simp [manimCloseHandler, muxCatchBlock, hbe, hvs, hrej, hc, hc2]
    · exact @bodyContains_of_mem _ "details" (ffmpegFailMessage c s) s
        (by simp [processingErrorBody])
        (containsStr_append ("FFmpeg failed with code " ++ toString c ++ ": ") s)
  · refine ⟨?_, ?_⟩
    · have hg := cleanupGuarded_snd_false rs as_ st fb hul
      simp [getAnimationCatch, hg]
    · exact @bodyContains_of_mem _ "details"
        ("Audio generation failed: " ++ pyErr) pyErr
        (by simp [outerCatchBody])
        (containsStr_append "Audio generation failed: " pyErr)
  · simp [manimErrorHandler, hc]

/-- Witness for the amended C2 at a concrete mux failure. -/
theorem c2_witness :
    (manimCloseHandler "jid" ⟨0, "mOut", "mErr", some "v.mp4",
        combineClose "op" 1 "ffErr", "FFOUT7"⟩ ⟨true, true⟩
        ⟨false, false, ""⟩).2 =
      HttpResponse.serverError
        (processingErrorBody (ffmpegFailMessage 1 "ffErr") "mOut" "mErr") ∧
    bodyContains (processingErrorBody (ffmpegFailMessage 1 "ffErr") "mOut" "mErr")
      "ffErr" = true :=
  (c2_failure_bodies "jid" "v.mp4" "op" "py" "d"
      ⟨0, "mOut", "mErr", some "v.mp4", combineClose "op" 1 "ffErr", "FFOUT7"⟩
      ⟨true, true⟩ ⟨false, false, ""⟩ 1 "ffErr" true true rfl rfl).2.2.1
    rfl rfl rfl (by decide)

end Server
